import Mathlib

/-!
Verification development for the warehouse-knowledge-assistant search backend
(`aiwmsa`). The definitions below are shallow embeddings of the TypeScript
services and SQL procedures of the repository:

* `SemanticSearchService` (semantic-search.service.ts): vector search,
  reranking, highlighting, suggestions, cache keys and the `search`
  orchestrator, modelled as pure state-passing functions;
* `AIService.generateAnswer` (aiService.ts): the confidence heuristic,
  modelled with explicit JavaScript `NaN` propagation;
* `EmbeddingService.generateBatchEmbeddings` (embedding.service.ts): the
  sub-batch loop with its per-item fallback, modelled with an explicit
  failure environment and an event trace;
* the SQL procedures `get_trending_queries` and `update_search_feedback`
  (search_system_complete.sql);
* the `POST /search/semantic` express route (routes/search.ts).

JavaScript strings are modelled as `List Char`; floating-point scores are
modelled as exact rationals (`ℚ`), with `NaN` made explicit where the code
can produce it; `Date.now()` is an explicit argument wherever the code
reads the clock.
-/

namespace Aiwmsa

/-- JavaScript strings, modelled as lists of characters. -/
abbrev Str := List Char

/-- `s.toLowerCase()`. -/
def jsToLower (s : Str) : Str := s.map Char.toLower

/-- `s.split(' ')`: splits at every single space, keeping empty pieces
(so `"a  b".split(' ') = ["a","","b"]` and `"".split(' ') = [""]`). -/
def jsSplitSpace (s : Str) : List Str := s.splitOn ' '

/-- `hay.includes(needle)` on strings: `needle` occurs contiguously in
`hay` (the empty string is contained in everything, as in JavaScript). -/
def jsIncludes (hay needle : Str) : Bool := decide (needle <:+: hay)

/-- `s.trim()`: strip whitespace from both ends. -/
def jsTrim (s : Str) : Str :=
  ((s.dropWhile Char.isWhitespace).reverse.dropWhile Char.isWhitespace).reverse

/-- One entry of `SearchResult[]` as used by the search service
(`id`, `content`, `score`, `documentId`, `documentTitle?`, `pageNumber?`,
`source?.updatedAt` flattened to `updatedAt`, `highlights`).
Scores are exact rationals; `updatedAt` is a millisecond timestamp. -/
structure SearchResult where
  id : ℕ
  content : Str
  score : ℚ
  documentId : ℕ
  documentTitle : Option Str
  pageNumber : Option ℕ
  updatedAt : Option ℚ
  highlights : List Str
  deriving DecidableEq, Repr

/-- The comparator `(a, b) => b.score - a.score` used by
`rerankResults`/`searchByDocument`: `a` sorts before `b` when
`b.score ≤ a.score`. -/
def scoreGE (a b : SearchResult) : Prop := b.score ≤ a.score

instance : DecidableRel scoreGE := fun a b => inferInstanceAs (Decidable (b.score ≤ a.score))

instance : IsTotal SearchResult scoreGE := ⟨fun a b => le_total b.score a.score⟩

instance : IsTrans SearchResult scoreGE := ⟨fun _ _ _ h h' => le_trans h' h⟩

/-- The term-overlap boost of `rerankResults`:
`queryTerms = query.toLowerCase().split(' ')` (note: no length filter),
`termMatches = queryTerms.filter(t => contentLower.includes(t)).length`,
boost `= (termMatches / queryTerms.length) * 0.1`. -/
def termOverlapBonus (query content : Str) : ℚ :=
  let queryTerms := jsSplitSpace (jsToLower query)
  let contentLower := jsToLower content
  let termMatches := (queryTerms.filter (fun t => jsIncludes contentLower t)).length
  (termMatches : ℚ) / (queryTerms.length : ℚ) * (1/10)

/-- The recency boost of `rerankResults`: with
`daysOld = (now - updatedAt) / 86400000`, add `0.05` if `daysOld < 7`,
else `0.02` if `daysOld < 30`, else `0`; no boost without a timestamp. -/
def recencyBonus (now : ℚ) (updatedAt : Option ℚ) : ℚ :=
  match updatedAt with
  | none => 0
  | some t =>
    let daysOld := (now - t) / 86400000
    if daysOld < 7 then 5/100 else if daysOld < 30 then 2/100 else 0

/-- The title boost of `rerankResults`: `0.15` if the lower-cased document
title contains the full lower-cased query, else `0`. -/
def titleBonus (query : Str) (documentTitle : Option Str) : ℚ :=
  match documentTitle with
  | none => 0
  | some title => if jsIncludes (jsToLower title) (jsToLower query) then 15/100 else 0

/-- `SemanticSearchService.rerankResults(query, results)`: each result's
score is adjusted by the three additive boosts, capped at `1.0`, and the
list is re-sorted by `(a, b) => b.score - a.score`. `Date.now()` is the
explicit argument `now` (milliseconds). -/
def rerankResults (query : Str) (results : List SearchResult) (now : ℚ) : List SearchResult :=
  let reranked := results.map (fun r =>
    let adjusted := r.score + termOverlapBonus query r.content
      + recencyBonus now r.updatedAt + titleBonus query r.documentTitle
    { r with score := min adjusted 1 })
  reranked.insertionSort scoreGE

/-- Sentence splitting on `/[.!?]+/`: runs of `.`, `!`, `?` act as one
separator (a leading separator yields an empty first piece, as in
JavaScript's `split`). -/
def isSentenceSep (c : Char) : Bool := c = '.' || c = '!' || c = '?'

/-- Split a string at maximal runs of sentence separators. -/
def splitSentences (s : Str) : List Str :=
  match s with
  | [] => [[]]
  | c :: rest =>
    if isSentenceSep c then
      [] :: splitSentences (rest.dropWhile isSentenceSep)
    else
      match splitSentences rest with
      | [] => [[c]]
      | p :: ps => (c :: p) :: ps
  termination_by s.length
  decreasing_by
    · exact Nat.lt_succ_of_le (rest.dropWhile_sublist isSentenceSep).length_le
    · simp

/-- Case-insensitive global replacement `s.replace(/(term)/gi, '**$1**')`:
scan left to right and wrap every (non-overlapping) case-insensitive
occurrence of `term` in `**…**`. The empty term matches nowhere here
(`rerankResults`' highlight loop only receives terms of length > 2). -/
def highlightTerm (term : Str) (s : Str) : Str :=
  match s with
  | [] => []
  | c :: rest =>
    if h : term ≠ [] ∧ jsToLower term <+: jsToLower (c :: rest) then
      '*' :: '*' :: (c :: rest).take term.length
        ++ '*' :: '*' :: highlightTerm term ((c :: rest).drop term.length)
    else
      c :: highlightTerm term rest
  termination_by s.length
  decreasing_by
    · have ht : 1 ≤ term.length := by
        cases term with
        | nil => exact absurd rfl h.1
        | cons x xs => simp
      simp only [List.length_drop, List.length_cons]
      omega
    · simp

/-- `SemanticSearchService.addHighlights(query, results)`: query terms are
lower-cased and filtered to length > 2 (unlike reranking); each result keeps
up to 3 sentences that contain a term, with the terms wrapped in `**…**`. -/
def addHighlights (query : Str) (results : List SearchResult) : List SearchResult :=
  let queryTerms := (jsSplitSpace (jsToLower query)).filter (fun t => t.length > 2)
  results.map (fun r =>
    let sentences := splitSentences r.content
    let highlights := (sentences.filter (fun s =>
        (queryTerms.any (fun t => jsIncludes (jsToLower s) t)) && (jsTrim s).length > 0)).map
      (fun s => jsTrim (queryTerms.foldl (fun acc t => highlightTerm t acc) s))
    { r with highlights := highlights.take 3 })

/-- Deduplication by JavaScript `new Set([...])` spread: keeps the first
occurrence of each element, in order. -/
def jsSetDedup (l : List Str) : List Str :=
  (l.foldl (fun acc s => if s ∈ acc then acc else acc ++ [s]) [])

/-- `s.split(/\s+/)` as used by `extractKeyPhrases`: split on whitespace
runs (empty pieces appear only at the boundaries; the phrase loop below
never looks past the produced list, so boundary empties are kept as JS
produces them). -/
def splitWhitespace (s : Str) : List Str :=
  match s with
  | [] => [[]]
  | c :: rest =>
    if c.isWhitespace then
      [] :: splitWhitespace (rest.dropWhile Char.isWhitespace)
    else
      match splitWhitespace rest with
      | [] => [[c]]
      | p :: ps => (c :: p) :: ps
  termination_by s.length
  decreasing_by
    · exact Nat.lt_succ_of_le (rest.dropWhile_sublist Char.isWhitespace).length_le
    · simp

/-- The 2-word and 3-word candidate phrases collected by
`extractKeyPhrases` from one lower-cased word list (window positions
`i < words.length - 1`, lengths constrained as in the source). -/
def phrasesOfWords (words : List Str) : List Str :=
  (List.range (words.length - 1)).flatMap (fun i =>
    let w0 := words.getD i []
    let w1 := words.getD (i + 1) []
    let phrase2 := w0 ++ ' ' :: w1
    let two := if phrase2.length > 5 ∧ phrase2.length < 50 then [phrase2] else []
    if i < words.length - 2 then
      let w2 := words.getD (i + 2) []
      let phrase3 := w0 ++ ' ' :: w1 ++ ' ' :: w2
      two ++ (if phrase3.length > 8 ∧ phrase3.length < 50 then [phrase3] else [])
    else two)

/-- Insertion-ordered counting map (`Map<string, number>` filled with
`set(p, get(p)+1)`): association list keyed in first-insertion order. -/
def countPhrases (phrases : List Str) : List (Str × ℕ) :=
  phrases.foldl (fun acc p =>
    if acc.any (fun q => q.1 = p) then
      acc.map (fun q => if q.1 = p then (q.1, q.2 + 1) else q)
    else acc ++ [(p, 1)]) []

/-- Comparator `(a, b) => b[1] - a[1]` on phrase counts. -/
def countGE (a b : Str × ℕ) : Prop := b.2 ≤ a.2

instance : DecidableRel countGE := fun a b => inferInstanceAs (Decidable (b.2 ≤ a.2))

/-- `SemanticSearchService.extractKeyPhrases(results)`: collect 2–3 word
phrases from the top results' lower-cased contents, count them, and return
the 5 most common. -/
def extractKeyPhrases (results : List SearchResult) : List Str :=
  let phrases := results.flatMap (fun r => phrasesOfWords (splitWhitespace (jsToLower r.content)))
  (((countPhrases phrases).insertionSort countGE).take 5).map (·.1)

/-- `SemanticSearchService.generateSuggestions(query, results)`:
related queries (external lookup, supplied by the environment) plus key
phrases of the top 3 results, deduplicated, with the query itself removed
case-insensitively, capped at 5. -/
def generateSuggestions (relatedQueries : List Str) (query : Str) (results : List SearchResult) :
    List Str :=
  let keyPhrases := extractKeyPhrases (results.take 3)
  ((jsSetDedup (relatedQueries ++ keyPhrases)).filter
    (fun s => jsToLower s ≠ jsToLower query)).take 5

/-- Structured search filters (`SearchFilters` in
semantic-search.service.ts). Identifiers and enumerated fields are strings,
dates are epoch timestamps. -/
structure SearchFilters where
  departmentId : Option Str := none
  warehouseId : Option Str := none
  documentType : Option Str := none
  language : Option Str := none
  dateFrom : Option ℚ := none
  dateTo : Option ℚ := none
  tags : Option (List Str) := none
  categories : Option (List Str) := none
  deriving DecidableEq, Repr

/-- `SearchOptions` of `SemanticSearchService.search`. Absent numeric
options are `none`. -/
structure SearchOptions where
  limit : Option ℕ := none
  offset : Option ℕ := none
  threshold : Option ℚ := none
  filters : Option SearchFilters := none
  includeMetadata : Bool := false
  rerank : Bool := false
  deriving DecidableEq, Repr

/-- One row of the `chunks ⋈ documents` join that `executeVectorSearch`
queries. `createdAt`/`updatedAt` are epoch timestamps (`updatedAt` in
milliseconds, matching `Date.getTime()`). -/
structure DBRow where
  id : ℕ
  content : Str
  chunkIndex : ℕ
  documentId : ℕ
  documentTitle : Str
  documentType : Str
  departmentId : Str
  warehouseId : Str
  language : Str
  category : Str
  createdAt : ℚ
  updatedAt : ℚ
  deriving DecidableEq, Repr

/-- An embedding vector. -/
abbrev Embedding := List ℚ

/-- A JavaScript truthiness-guarded string filter: the TS builder adds the
`AND` clause only `if (filters.field)`, so an absent or empty string means
"no constraint". -/
def strFilter (o : Option Str) (k : Str → Bool) : Bool :=
  match o with
  | none => true
  | some v => if v = [] then true else k v

/-- The `WHERE` clause built by `executeVectorSearch` from the filters
(department, warehouse, type, language, creation-date range, categories;
the `tags` field of `SearchFilters` is never used by the builder). -/
def matchesFilters (f : Option SearchFilters) (r : DBRow) : Bool :=
  match f with
  | none => true
  | some f =>
    strFilter f.departmentId (fun v => r.departmentId = v) &&
    strFilter f.warehouseId (fun v => r.warehouseId = v) &&
    strFilter f.documentType (fun v => r.documentType = v) &&
    strFilter f.language (fun v => r.language = v) &&
    (match f.dateFrom with | none => true | some d => decide (d ≤ r.createdAt)) &&
    (match f.dateTo with | none => true | some d => decide (r.createdAt ≤ d)) &&
    (match f.categories with
     | none => true
     | some cats => if cats.length > 0 then cats.contains r.category else true)

/-- The deterministic environment of one `SemanticSearchService` instance:
the joined table, the (cached, deterministic) embedding of each query
text, the cosine distance `c.embedding <=> $1::vector` of each chunk from
a query embedding, the related-query history lookup, and the clock. -/
structure SearchEnv where
  rows : List DBRow
  embedOf : Str → Embedding
  distOf : Embedding → ℕ → ℚ
  relatedQueries : Str → List Str
  now : ℚ
  elapsed : ℚ
  logWriteFails : Bool := false

/-- Map a database row to a `SearchResult`
(`score = 1 - (c.embedding <=> $1::vector)`). -/
def rowToResult (env : SearchEnv) (emb : Embedding) (r : DBRow) : SearchResult :=
  { id := r.id
    content := r.content
    score := 1 - env.distOf emb r.id
    documentId := r.documentId
    documentTitle := some r.documentTitle
    pageNumber := some r.chunkIndex
    updatedAt := some r.updatedAt
    highlights := [] }

/-- `SemanticSearchService.executeVectorSearch`: keep the rows that pass
the filters and whose similarity `1 - distance` strictly exceeds the
threshold, order by similarity descending, then apply `OFFSET`/`LIMIT`
and map the rows to `SearchResult`s. -/
def executeVectorSearch (env : SearchEnv) (emb : Embedding) (limit offset : ℕ)
    (threshold : ℚ) (filters : Option SearchFilters) : List SearchResult :=
  let kept := env.rows.filter (fun r =>
    matchesFilters filters r && decide (threshold < 1 - env.distOf emb r.id))
  let sorted := (kept.map (rowToResult env emb)).insertionSort scoreGE
  (sorted.drop offset).take limit

/-- Base-10 digits of `n`, least significant first (explicit fuel keeps
the recursion structural). -/
def natDigitsAux : ℕ → ℕ → List ℕ
  | 0, _ => []
  | fuel + 1, n => if n = 0 then [] else n % 10 :: natDigitsAux fuel (n / 10)

/-- Base-10 digits of `n`, least significant first. -/
def natDigits (n : ℕ) : List ℕ := natDigitsAux n n

/-- Decimal digits of `n`, as in JavaScript `${n}` for a whole number. -/
def natChars (n : ℕ) : Str :=
  if n = 0 then ['0'] else ((natDigits n).reverse).map Nat.digitChar

/-- `${x}` for a possibly-undefined whole number: JavaScript renders the
absent value as the string `"undefined"`. -/
def renderOptNat (o : Option ℕ) : Str :=
  match o with
  | none => "undefined".toList
  | some n => natChars n

/-- Decimal rendering of an integer. -/
def intChars (i : ℤ) : Str :=
  if i < 0 then '-' :: natChars i.natAbs else natChars i.natAbs

/-- Rendering of a rational timestamp used when serializing date filters. -/
def ratChars (q : ℚ) : Str := intChars q.num ++ '/' :: natChars q.den

/-- A JSON string literal (filter identifiers; escaping is not modelled). -/
def jsonStr (s : Str) : Str := '"' :: s ++ ['"']

/-- `JSON.stringify` over the filter object: present fields in declaration
order, absent (`undefined`) fields skipped. -/
def jsonFilters (f : SearchFilters) : Str :=
  let strField (name : Str) (v : Option Str) : List Str :=
    match v with | none => [] | some s => [jsonStr name ++ ':' :: jsonStr s]
  let dateField (name : Str) (v : Option ℚ) : List Str :=
    match v with | none => [] | some d => [jsonStr name ++ ':' :: jsonStr (ratChars d)]
  let listField (name : Str) (v : Option (List Str)) : List Str :=
    match v with
    | none => []
    | some l => [jsonStr name ++ ':' :: '[' :: (List.intercalate [','] (l.map jsonStr)) ++ [']']]
  let fields := strField "departmentId".toList f.departmentId
    ++ strField "warehouseId".toList f.warehouseId
    ++ strField "documentType".toList f.documentType
    ++ strField "language".toList f.language
    ++ dateField "dateFrom".toList f.dateFrom
    ++ dateField "dateTo".toList f.dateTo
    ++ listField "tags".toList f.tags
    ++ listField "categories".toList f.categories
  '{' :: (List.intercalate [','] fields) ++ ['}']

/-- `SemanticSearchService.getCacheKey(query, options)`:
`` `search:${query}:${options.limit}:${options.offset}:${filters}` ``
truncated to its first 200 characters. Note that neither `threshold` nor
`rerank` is part of the key. -/
def getCacheKey (query : Str) (options : SearchOptions) : Str :=
  let filters := match options.filters with | none => [] | some f => jsonFilters f
  (("search:".toList ++ query ++ ':' :: renderOptNat options.limit
    ++ ':' :: renderOptNat options.offset ++ ':' :: filters)).take 200

/-- The `SearchResponse` record assembled by `search`. -/
structure SearchResponse where
  query : Str
  results : List SearchResult
  totalCount : ℕ
  executionTime : ℚ
  filters : Option SearchFilters
  suggestions : List Str
  deriving DecidableEq, Repr

/-- Mutable state surrounding one `SemanticSearchService`: the redis
response cache (most recent entry first), the count of remote embedding
calls made so far, and the `search_logs` analytics rows. -/
structure SearchState where
  cache : List (Str × SearchResponse) := []
  embedCalls : ℕ := 0
  searchLogs : List (Str × ℕ) := []
  deriving Repr

/-- `SemanticSearchService.search(query, options)`: defaults
(`limit || 10`, `offset || 0`, `threshold || 0.7` — JavaScript `||`, so an
explicit `0` also falls back), cache lookup, embedding call, vector
search, optional reranking, highlighting, suggestions, response assembly,
cache store and analytics logging (whose failure is caught and only
logged as a warning). Returns the response and the updated state. -/
def search (env : SearchEnv) (st : SearchState) (query : Str) (options : SearchOptions) :
    SearchResponse × SearchState :=
  let limit := match options.limit with | some n => if n = 0 then 10 else n | none => 10
  let offset := match options.offset with | some n => n | none => 0
  let threshold := match options.threshold with | some t => if t = 0 then 7/10 else t | none => 7/10
  let cacheKey := getCacheKey query options
  match st.cache.lookup cacheKey with
  | some cached => (cached, st)
  | none =>
    let emb := env.embedOf query
    let searchResults := executeVectorSearch env emb limit offset threshold options.filters
    let finalResults :=
      if options.rerank ∧ searchResults.length > 0 then
        rerankResults query searchResults env.now
      else searchResults
    let withHighlights := addHighlights query finalResults
    let suggestions := generateSuggestions (env.relatedQueries query) query withHighlights
    let response : SearchResponse :=
      { query := query
        results := withHighlights
        totalCount := withHighlights.length
        executionTime := env.elapsed
        filters := options.filters
        suggestions := suggestions }
    let st' : SearchState :=
      { st with
        embedCalls := st.embedCalls + 1
        cache := (cacheKey, response) :: st.cache
        searchLogs :=
          if env.logWriteFails then st.searchLogs
          else (query, response.totalCount) :: st.searchLogs }
    (response, st')

/-! ### `AIService.generateAnswer` confidence heuristic (aiService.ts) -/

/-- A JavaScript number that may be `NaN` (other numbers are exact
rationals). -/
inductive JSNum where
  | nan : JSNum
  | num : ℚ → JSNum
  deriving DecidableEq, Repr

/-- JavaScript division: `0/0` (the only zero-denominator case reached by
the confidence computation, since the numerator is a `reduce` starting at
`0` over the same empty list) is `NaN`. -/
def jsDiv (a b : ℚ) : JSNum := if b = 0 then .nan else .num (a / b)

/-- Multiplication with `NaN` propagation. -/
def jsMul (a : JSNum) (b : ℚ) : JSNum :=
  match a with
  | .nan => .nan
  | .num q => .num (q * b)

/-- `Math.min(x, c)`: `NaN` absorbs. -/
def jsMin (a : JSNum) (b : ℚ) : JSNum :=
  match a with
  | .nan => .nan
  | .num q => .num (min q b)

/-- Whether a JavaScript number lies in `[0, 1]` (`NaN` does not). -/
def inUnitInterval (a : JSNum) : Bool :=
  match a with
  | .nan => false
  | .num q => decide (0 ≤ q) && decide (q ≤ 1)

/-- The confidence score computed by `AIService.generateAnswer`:
`avgSimilarity = relevantChunks.reduce((acc, c) => acc + c.similarity, 0) /
relevantChunks.length` and `confidence = Math.min(avgSimilarity * 1.2, 1)`.
On an empty chunk list the division is `0/0 = NaN`, which propagates. -/
def generateAnswerConfidence (similarities : List ℚ) : JSNum :=
  let avgSimilarity := jsDiv (similarities.foldl (· + ·) 0) (similarities.length : ℚ)
  jsMin (jsMul avgSimilarity (6/5)) 1

/-! ### `EmbeddingService.generateBatchEmbeddings` (embedding.service.ts) -/

/-- The result record assembled per text (`id` is the md5 of the text,
kept abstract as the text itself; only `id` and `embedding` matter to the
batching behaviour). -/
structure EmbeddingResult where
  id : Str
  embedding : Embedding
  deriving DecidableEq, Repr

/-- Failure environment of the batch loop: whether the provider batch call
of sub-batch number `i` throws, whether the per-item fallback
`generateEmbedding(text)` throws for a given text, and the embedding each
successful call returns. -/
structure BatchEnv where
  batchCallFails : ℕ → Bool
  itemCallFails : Str → Bool
  embedOf : Str → Embedding

/-- Events observable from the batch loop, in order: a provider batch
call, a per-item fallback call, or the inter-batch delay `delay(delayMs)`. -/
inductive BatchEvent where
  | batchCall : List Str → BatchEvent
  | itemCall : Str → BatchEvent
  | delayEv : ℕ → BatchEvent
  deriving DecidableEq, Repr

/-- One iteration body of the batch loop over `batch = texts.slice(i, i +
batchSize)`: on provider success every text yields a result (and, when more
texts remain, the rate-limit delay runs); on provider failure each text is
retried individually, failed items being logged and dropped. -/
def processOneBatch (env : BatchEnv) (batchIdx : ℕ) (batch : List Str) (delayMs : ℕ)
    (moreRemain : Bool) : List EmbeddingResult × List BatchEvent :=
  if env.batchCallFails batchIdx then
    (batch.filterMap (fun t =>
        if env.itemCallFails t then none else some ⟨t, env.embedOf t⟩),
      .batchCall batch :: batch.map .itemCall)
  else
    (batch.map (fun t => ⟨t, env.embedOf t⟩),
      if moreRemain then [.batchCall batch, .delayEv delayMs] else [.batchCall batch])

/-- The loop `for (let i = 0; i < texts.length; i += batchSize)` of
`generateBatchEmbeddings`, with `batchSize = bs + 1` (the service default
is 100; a zero step would not terminate in JavaScript either). -/
def batchLoop (env : BatchEnv) (bs : ℕ) (delayMs : ℕ) (batchIdx : ℕ) (texts : List Str) :
    List EmbeddingResult × List BatchEvent :=
  match texts with
  | [] => ([], [])
  | t :: rest =>
    let batch := (t :: rest).take (bs + 1)
    let remaining := (t :: rest).drop (bs + 1)
    ((processOneBatch env batchIdx batch delayMs (remaining ≠ [])).1
        ++ (batchLoop env bs delayMs (batchIdx + 1) remaining).1,
      (processOneBatch env batchIdx batch delayMs (remaining ≠ [])).2
        ++ (batchLoop env bs delayMs (batchIdx + 1) remaining).2)
  termination_by texts.length
  decreasing_by all_goals simp [List.length_drop]; omega

/-- `EmbeddingService.generateBatchEmbeddings(texts, {batchSize, delayMs})`
with `batchSize = bs + 1`. -/
def generateBatchEmbeddings (env : BatchEnv) (bs : ℕ) (delayMs : ℕ) (texts : List Str) :
    List EmbeddingResult × List BatchEvent :=
  batchLoop env bs delayMs 0 texts

/-! ### SQL `get_trending_queries` (search_system_complete.sql) -/

/-- One `search_logs` row (the fields the trending query reads).
`createdAt` is epoch seconds. -/
structure SearchLogRow where
  query : Str
  userId : ℕ
  createdAt : ℚ
  resultsCount : ℚ
  deriving DecidableEq, Repr

/-- The most recent `created_at` among a group of log rows
(`MAX(sl.created_at)`); `0` for an empty group (never reached: groups come
from `GROUP BY` and are nonempty). -/
def maxCreatedAt (rows : List SearchLogRow) : ℚ :=
  match rows with
  | [] => 0
  | r :: rest => rest.foldl (fun m x => max m x.createdAt) r.createdAt

/-- One row of the `get_trending_queries` result table. -/
structure TrendRow where
  query : Str
  searchCount : ℕ
  uniqueUsers : ℕ
  trendScore : ℝ
  avgResults : ℚ

/-- `ORDER BY trend_score DESC`. -/
def trendGE (a b : TrendRow) : Prop := b.trendScore ≤ a.trendScore

noncomputable instance : DecidableRel trendGE :=
  fun a b => Real.decidableLE b.trendScore a.trendScore

instance : IsTotal TrendRow trendGE := ⟨fun a b => le_total b.trendScore a.trendScore⟩

instance : IsTrans TrendRow trendGE := ⟨fun _ _ _ h h' => le_trans h' h⟩

/-- The rows of `search_logs` within the trailing window
`created_at > NOW() - INTERVAL '1 day' * p_days` that carry a given query. -/
def windowRowsFor (logs : List SearchLogRow) (now : ℚ) (pDays : ℕ) (q : Str) :
    List SearchLogRow :=
  (logs.filter (fun l => decide (now - (pDays : ℚ) * 86400 < l.createdAt))).filter
    (fun l => l.query = q)

/-- The decayed trending score of the SQL function:
`COUNT(*) * EXP(-0.1 * EXTRACT(EPOCH FROM (NOW() - MAX(created_at))) / 86400)`. -/
noncomputable def trendScoreOf (logs : List SearchLogRow) (now : ℚ) (pDays : ℕ) (q : Str) : ℝ :=
  let grp := windowRowsFor logs now pDays q
  (grp.length : ℝ) * Real.exp (-(1/10) * (((now : ℝ) - (maxCreatedAt grp : ℝ)) / 86400))

/-- SQL `get_trending_queries(p_days, p_limit)` (without the optional
language/department filters, which default to `NULL` and filter nothing):
group the windowed `search_logs` rows by query, compute count, distinct
users, decayed trend score and average result count per group, order by
trend score descending and keep the first `p_limit` rows. -/
noncomputable def get_trending_queries (logs : List SearchLogRow) (now : ℚ)
    (pDays pLimit : ℕ) : List TrendRow :=
  let window := logs.filter (fun l => decide (now - (pDays : ℚ) * 86400 < l.createdAt))
  let queries := (window.map (·.query)).dedup
  let rows := queries.map (fun q =>
    let grp := window.filter (fun l => l.query = q)
    ({ query := q
       searchCount := grp.length
       uniqueUsers := ((grp.map (·.userId)).dedup).length
       trendScore := (grp.length : ℝ) *
         Real.exp (-(1/10) * (((now : ℝ) - (maxCreatedAt grp : ℝ)) / 86400))
       avgResults := (grp.map (·.resultsCount)).sum / (grp.length : ℚ) } : TrendRow))
  (rows.insertionSort trendGE).take pLimit

/-! ### SQL `update_search_feedback` (search_system_complete.sql) -/

/-- The rating enumeration of `search_feedback.rating`
(`CHECK (rating IN ('helpful','not_helpful','partially_helpful'))`). -/
inductive Rating where
  | helpful
  | not_helpful
  | partially_helpful
  deriving DecidableEq, Repr

/-- A `search_feedback` row; `(searchLogId, userId, resultId)` is covered
by the unique index `idx_search_feedback_unique`. -/
structure FeedbackRow where
  searchLogId : ℕ
  userId : ℕ
  resultId : ℕ
  rating : Rating
  clicked : Bool
  timeToClick : Option ℤ
  dwellTime : Option ℤ
  comment : Option Str
  createdAt : ℚ
  deriving DecidableEq, Repr

/-- The arguments of one `update_search_feedback` call (with `createdAt`
standing for the `NOW()` read by the conflict branch). -/
structure FeedbackParams where
  searchLogId : ℕ
  userId : ℕ
  resultId : ℕ
  rating : Rating
  clicked : Bool := false
  timeToClick : Option ℤ := none
  dwellTime : Option ℤ := none
  comment : Option Str := none
  createdAt : ℚ := 0
  deriving DecidableEq, Repr

/-- Whether a stored row carries the key triple of a call. -/
def feedbackKeyMatches (p : FeedbackParams) (r : FeedbackRow) : Bool :=
  r.searchLogId = p.searchLogId && r.userId = p.userId && r.resultId = p.resultId

/-- The row contents written by a call (both the insert and the
`DO UPDATE ... = EXCLUDED...., created_at = NOW()` branch produce these
fields for the key triple). -/
def feedbackRowOf (p : FeedbackParams) : FeedbackRow :=
  { searchLogId := p.searchLogId
    userId := p.userId
    resultId := p.resultId
    rating := p.rating
    clicked := p.clicked
    timeToClick := p.timeToClick
    dwellTime := p.dwellTime
    comment := p.comment
    createdAt := p.createdAt }

/-- SQL `update_search_feedback`: `INSERT ... ON CONFLICT (search_log_id,
user_id, result_id) DO UPDATE SET rating = EXCLUDED.rating, ...,
created_at = NOW()` — if a row with the key triple exists it is
overwritten in place, otherwise a new row is appended. -/
def update_search_feedback (table : List FeedbackRow) (p : FeedbackParams) : List FeedbackRow :=
  if table.any (feedbackKeyMatches p) then
    table.map (fun r => if feedbackKeyMatches p r then feedbackRowOf p else r)
  else
    table ++ [feedbackRowOf p]

/-- A whole sequence of feedback submissions applied in order. -/
def applyFeedbacks (table : List FeedbackRow) (ps : List FeedbackParams) : List FeedbackRow :=
  ps.foldl update_search_feedback table

/-- The stored rows for one key triple. -/
def rowsForKey (p : FeedbackParams) (table : List FeedbackRow) : List FeedbackRow :=
  table.filter (feedbackKeyMatches p)

/-- Whether two calls address the same `(search_log_id, user_id,
result_id)` triple. -/
def feedbackParamsKeyEq (a b : FeedbackParams) : Bool :=
  a.searchLogId = b.searchLogId && a.userId = b.userId && a.resultId = b.resultId

/-! ### `POST /search/semantic` (routes/search.ts) -/

/-- The environment of one request to the semantic-search route: whether
the initial `prisma.query.create` log write throws, whether the
`prisma.query.update` log write after the search throws, and the
(successful) results of `embeddingService.searchSimilar`. -/
structure RouteEnv where
  createLogFails : Bool
  updateLogFails : Bool
  searchSimilarResults : List SearchResult
  deriving Repr

/-- The route's outcome: a JSON body with results, or an HTTP 500
`{ error: 'Search failed' }`. -/
inductive RouteOutcome where
  | ok : List SearchResult → RouteOutcome
  | serverError : RouteOutcome
  deriving DecidableEq, Repr

/-- The `POST /search/semantic` handler: inside one `try` block it awaits
the `prisma.query.create` log write, runs the search, awaits the
`prisma.query.update` log write, and only then responds; any thrown error
reaches the `catch`, which responds with HTTP 500. -/
def semanticSearchRoute (env : RouteEnv) : RouteOutcome :=
  if env.createLogFails then .serverError
  else
    let results := env.searchSimilarResults
    if env.updateLogFails then .serverError
    else .ok results

/-- The partition of the input texts into the sub-batches
`texts.slice(i, i + batchSize)` visited by the loop, with
`batchSize = bs + 1`. -/
def chunksOf (bs : ℕ) (l : List Str) : List (List Str) :=
  match l with
  | [] => []
  | t :: rest => ((t :: rest).take (bs + 1)) :: chunksOf bs ((t :: rest).drop (bs + 1))
  termination_by l.length
  decreasing_by simp [List.length_drop]; omega

/-- The event trace of an all-successful batch run: one provider batch
call per sub-batch, with the rate-limit delay after every sub-batch except
the last. -/
def batchSuccessTrace (delayMs : ℕ) : List (List Str) → List BatchEvent
  | [] => []
  | [c] => [.batchCall c]
  | c :: c' :: cs => .batchCall c :: .delayEv delayMs :: batchSuccessTrace delayMs (c' :: cs)

/-- The sub-batch payload of a batch-call event. -/
def batchPayload (e : BatchEvent) : Option (List Str) :=
  match e with
  | .batchCall b => some b
  | _ => none

/-- The per-sub-batch description of the results of the batch loop: a
successful provider call embeds every text of the sub-batch; a failed one
keeps exactly the texts whose individual fallback succeeds; sub-batches
contribute in order. -/
def batchResultsSpec (env : BatchEnv) : ℕ → List (List Str) → List EmbeddingResult
  | _, [] => []
  | i, c :: cs =>
    (if env.batchCallFails i then
      (c.filter (fun t => !env.itemCallFails t)).map (fun t => ⟨t, env.embedOf t⟩)
     else c.map (fun t => ⟨t, env.embedOf t⟩)) ++ batchResultsSpec env (i + 1) cs

/-! ## Theorems -/

/-- The spec's version of the term-overlap bonus, for comparison with the
code: "fraction of query terms (lower-cased, length > 2) present in the
chunk content, scaled by ≈0.1". -/
def specTermOverlapBonus (query content : Str) : ℚ :=
  let terms := (jsSplitSpace (jsToLower query)).filter (fun t => t.length > 2)
  let matched := (terms.filter (fun t => jsIncludes (jsToLower content) t)).length
  (matched : ℚ) / (terms.length : ℚ) * (1/10)

/-- C2, counterexample: for query `"to warehouse"` over a chunk with
content `"go to the dock"`, `rerankResults` counts the length-2 term
`"to"` (it applies no length filter) and yields `0.5 + (1/2)·0.1 = 0.55`,
while the claimed formula (terms of length > 2 only) yields `0.5`. -/
theorem C2_counterexample :
    ((rerankResults "to warehouse".toList
        [{ id := 0, content := "go to the dock".toList, score := 1/2, documentId := 0,
           documentTitle := none, pageNumber := none, updatedAt := none,
           highlights := [] }] 0).map (·.score) = [11/20])
    ∧ (1:ℚ)/2 + specTermOverlapBonus "to warehouse".toList "go to the dock".toList
        + recencyBonus 0 none + titleBonus "to warehouse".toList none = 1/2
    ∧ ((11:ℚ)/20 ≠ 1/2) := by
  have e1 : ((jsSplitSpace (jsToLower "to warehouse".toList)).filter
      (fun t => jsIncludes (jsToLower "go to the dock".toList) t)).length = 1 := by decide
  have e2 : (jsSplitSpace (jsToLower "to warehouse".toList)).length = 2 := by decide
  have hb : termOverlapBonus "to warehouse".toList "go to the dock".toList = 1/20 := by
    simp only [termOverlapBonus]
    rw [e1, e2]
    norm_num
  have e3 : (((jsSplitSpace (jsToLower "to warehouse".toList)).filter
        (fun t => t.length > 2)).filter
      (fun t => jsIncludes (jsToLower "go to the dock".toList) t)).length = 0 := by decide
  have e4 : ((jsSplitSpace (jsToLower "to warehouse".toList)).filter
      (fun t => t.length > 2)).length = 1 := by decide
  have hb2 : specTermOverlapBonus "to warehouse".toList "go to the dock".toList = 0 := by
    simp only [specTermOverlapBonus]
    rw [e3, e4]
    norm_num
  refine ⟨?_, ?_, by norm_num⟩
  · simp only [rerankResults, List.map, List.insertionSort, List.orderedInsert, hb,
      recencyBonus, titleBonus]
    norm_num [min_def]
  · rw [hb2]
    simp only [recencyBonus, titleBonus]
    norm_num

/-- C2 (amended): `rerankResults` assigns each result an adjusted score of
raw score plus (a) the fraction of *all* space-separated lower-cased query
terms (no length filter) contained in the content, scaled by 0.1, plus
(b) the 7-day/30-day recency bonus, plus (c) the 0.15 title-match bonus,
clamped to at most 1.0 — the output being a reordering (permutation) of
the results so adjusted. -/
theorem C2_rerank_additive_formula (query : Str) (results : List SearchResult) (now : ℚ) :
    (rerankResults query results now).Perm
      (results.map (fun r =>
        { r with score := min (r.score + termOverlapBonus query r.content
            + recencyBonus now r.updatedAt + titleBonus query r.documentTitle) 1 })) := by
  unfold rerankResults
  exact List.perm_insertionSort _ _

/-- C3, counterexample: `rerankResults` reads `Date.now()`, so two
invocations on identical `(query, rawResults)` inputs at different clock
readings differ: a document updated at epoch 0 gets the +0.05 recency
boost when reranked at time 0 but no boost 40 days later. -/
theorem C3_counterexample :
    rerankResults "q".toList
        [{ id := 0, content := "x".toList, score := 1/2, documentId := 0,
           documentTitle := none, pageNumber := none, updatedAt := some 0,
           highlights := [] }] 0
      ≠ rerankResults "q".toList
        [{ id := 0, content := "x".toList, score := 1/2, documentId := 0,
           documentTitle := none, pageNumber := none, updatedAt := some 0,
           highlights := [] }] (86400000 * 40) := by
  have e1 : ((jsSplitSpace (jsToLower "q".toList)).filter
      (fun t => jsIncludes (jsToLower "x".toList) t)).length = 0 := by decide
  have e2 : (jsSplitSpace (jsToLower "q".toList)).length = 1 := by decide
  have hb : termOverlapBonus "q".toList "x".toList = 0 := by
    simp only [termOverlapBonus]
    rw [e1, e2]
    norm_num
  have hmap1 : (rerankResults "q".toList
      [{ id := 0, content := "x".toList, score := 1/2, documentId := 0,
         documentTitle := none, pageNumber := none, updatedAt := some 0,
         highlights := [] }] 0).map (·.score) = [11/20] := by
    simp only [rerankResults, List.map, List.insertionSort, List.orderedInsert, hb,
      recencyBonus, titleBonus]
    norm_num [min_def]
  have hmap2 : (rerankResults "q".toList
      [{ id := 0, content := "x".toList, score := 1/2, documentId := 0,
         documentTitle := none, pageNumber := none, updatedAt := some 0,
         highlights := [] }] (86400000 * 40)).map (·.score) = [1/2] := by
    simp only [rerankResults, List.map, List.insertionSort, List.orderedInsert, hb,
      recencyBonus, titleBonus]
    norm_num [min_def]
  intro he
  have : ([11/20] : List ℚ) = [1/2] := by rw [← hmap1, he, hmap2]
  exact absurd this (by norm_num)

/-- C3 (amended): reranking is deterministic given the listed inputs
*and* the clock reading: whenever two invocation times classify every
result into the same recency bucket, the outputs are identical (in
particular, two invocations at the same clock reading always agree). -/
theorem C3_rerank_deterministic_given_clock (query : Str) (results : List SearchResult)
    (t₁ t₂ : ℚ) (h : ∀ r ∈ results, recencyBonus t₁ r.updatedAt = recencyBonus t₂ r.updatedAt) :
    rerankResults query results t₁ = rerankResults query results t₂ := by
  unfold rerankResults
  exact congrArg (List.insertionSort scoreGE)
    (List.map_congr_left fun r hr => by rw [h r hr])

/-- C3, witness: two invocations whose clock readings land in the same
recency bucket (times 0 and one day later, document updated at epoch 0)
produce identical output. -/
theorem C3_rerank_deterministic_witness :
    rerankResults "q".toList
        [{ id := 0, content := "x".toList, score := 1/2, documentId := 0,
           documentTitle := none, pageNumber := none, updatedAt := some 0,
           highlights := [] }] 0
      = rerankResults "q".toList
        [{ id := 0, content := "x".toList, score := 1/2, documentId := 0,
           documentTitle := none, pageNumber := none, updatedAt := some 0,
           highlights := [] }] 86400000 :=
  C3_rerank_deterministic_given_clock _ _ _ _ (by
    intro r hr
    simp only [List.mem_singleton] at hr
    subst hr
    norm_num [recencyBonus])

/-- C4, counterexample: on an empty chunk list `generateAnswer` divides
`0` by `0`, so the confidence is `NaN`, which does not lie in `[0, 1]`. -/
theorem C4_counterexample :
    generateAnswerConfidence [] = JSNum.nan
    ∧ inUnitInterval (generateAnswerConfidence []) = false := by
  decide

/-- C4 (amended): over a nonempty chunk list whose similarity scores are
nonnegative, the confidence equals the mean similarity scaled by 1.2 and
capped at 1.0, and lies in `[0, 1]` even when individual similarities
exceed 1; the empty list instead produces `NaN`. -/
theorem C4_confidence_mean_scaled_clamped (sims : List ℚ) (hne : sims ≠ [])
    (hnn : ∀ s ∈ sims, 0 ≤ s) :
    generateAnswerConfidence sims
      = .num (min (sims.sum / (sims.length : ℚ) * (6/5)) 1)
    ∧ inUnitInterval (generateAnswerConfidence sims) = true := by
  have hlen : ((sims.length : ℚ)) ≠ 0 := by
    have := List.length_pos.mpr hne
    exact_mod_cast Nat.pos_iff_ne_zero.mp this
  have heq : generateAnswerConfidence sims
      = .num (min (sims.sum / (sims.length : ℚ) * (6/5)) 1) := by
    unfold generateAnswerConfidence jsDiv jsMul jsMin
    rw [if_neg hlen]
    rw [← List.sum_eq_foldl]
  refine ⟨heq, ?_⟩
  rw [heq]
  unfold inUnitInterval
  have h0 : (0:ℚ) ≤ sims.sum / (sims.length : ℚ) * (6/5) := by
    apply mul_nonneg
    · exact div_nonneg (List.sum_nonneg hnn) (by positivity)
    · norm_num
  simp only [Bool.and_eq_true, decide_eq_true_eq]
  exact ⟨le_min h0 (by norm_num), min_le_right _ _⟩

/-- C4, witness: a single chunk with similarity 1.5 (> 1) gives confidence
`min(1.5 · 1.2, 1) = 1`, inside `[0, 1]`. -/
theorem C4_confidence_witness :
    generateAnswerConfidence [3/2] = .num 1
    ∧ inUnitInterval (generateAnswerConfidence [3/2]) = true := by
  have h := C4_confidence_mean_scaled_clamped [3/2] (by simp)
    (by intro s hs; simp only [List.mem_singleton] at hs; subst hs; norm_num)
  refine ⟨?_, h.2⟩
  rw [h.1]
  norm_num

/-- C7: issuing the same search twice with the same options against the
same environment yields identical responses, and the two calls together
perform at most one remote embedding call (the second is a cache hit). -/
theorem C7_cache_idempotent (env : SearchEnv) (st : SearchState) (query : Str)
    (options : SearchOptions) :
    (search env (search env st query options).2 query options).1
        = (search env st query options).1
    ∧ (search env (search env st query options).2 query options).2.embedCalls
        ≤ st.embedCalls + 1 := by
  unfold search
  cases hc : st.cache.lookup (getCacheKey query options) with
  | some cached => simp [hc]
  | none => simp [hc, List.lookup_cons_self]

/-- C9: the `POST /search/semantic` handler awaits its search-log
`update` inside the same `try` as the search, so a log-write failure
after a successful search responds HTTP 500 and discards the computed
results (while with working logging the same results are returned). -/
theorem C9_route_discards_results_on_log_failure :
    semanticSearchRoute
        { createLogFails := false, updateLogFails := true,
          searchSimilarResults :=
            [{ id := 1, content := "forklift".toList, score := 9/10, documentId := 1,
               documentTitle := none, pageNumber := none, updatedAt := none,
               highlights := [] }] } = .serverError
    ∧ semanticSearchRoute
        { createLogFails := false, updateLogFails := false,
          searchSimilarResults :=
            [{ id := 1, content := "forklift".toList, score := 9/10, documentId := 1,
               documentTitle := none, pageNumber := none, updatedAt := none,
               highlights := [] }] }
        = .ok [{ id := 1, content := "forklift".toList, score := 9/10, documentId := 1,
                 documentTitle := none, pageNumber := none, updatedAt := none,
                 highlights := [] }] :=
  ⟨rfl, rfl⟩

/-! ### C8: batch embeddings -/

theorem batchPayload_itemCall (t : Str) : batchPayload (.itemCall t) = none := rfl

theorem filterMap_payload_nil (l : List BatchEvent) (h : ∀ e ∈ l, batchPayload e = none) :
    l.filterMap batchPayload = [] := by
  induction l with
  | nil => rfl
  | cons e rest ih =>
    rw [List.filterMap_cons, h e (List.mem_cons_self _ _)]
    exact ih (fun e' he' => h e' (List.mem_cons_of_mem _ he'))

theorem filterMap_payload_of_itemCalls (n : ℕ) (l : List Str) :
    (List.take n (l.map BatchEvent.itemCall)).filterMap batchPayload = [] := by
  apply filterMap_payload_nil
  intro e he
  obtain ⟨t, -, rfl⟩ := List.mem_map.mp (List.take_subset _ _ he)
  rfl

theorem filterMap_payload_of_itemCalls' (l : List Str) :
    (l.map BatchEvent.itemCall).filterMap batchPayload = [] := by
  apply filterMap_payload_nil
  intro e he
  obtain ⟨t, -, rfl⟩ := List.mem_map.mp he
  rfl

theorem filterMap_ite_none_some (p : Str → Bool) (f : Str → EmbeddingResult) (l : List Str) :
    (l.filterMap (fun t => if p t then none else some (f t)))
      = (l.filter (fun t => !p t)).map f := by
  induction l with
  | nil => rfl
  | cons t rest ih =>
    cases hp : p t <;> simp [List.filterMap_cons, List.filter_cons, hp, ih]

theorem batchLoop_trace_batchCalls (env : BatchEnv) (bs delayMs : ℕ) :
    ∀ (i : ℕ) (texts : List Str),
      (batchLoop env bs delayMs i texts).2.filterMap batchPayload = chunksOf bs texts := by
  intro i texts
  induction texts using chunksOf.induct bs generalizing i with
  | case1 => simp [batchLoop, chunksOf]
  | case2 t rest ih =>
    simp only [batchLoop, List.filterMap_append]
    rw [ih (i + 1), chunksOf]
    rw [show (t :: rest).take (bs + 1) :: chunksOf bs ((t :: rest).drop (bs + 1))
        = [(t :: rest).take (bs + 1)] ++ chunksOf bs ((t :: rest).drop (bs + 1)) from rfl]
    congr 1
    cases hb : env.batchCallFails i with
    | true =>
      simp [processOneBatch, hb, batchPayload, List.filterMap_cons,
        filterMap_payload_of_itemCalls, filterMap_payload_of_itemCalls']
    | false =>
      simp only [processOneBatch, hb, Bool.false_eq_true, if_false]
      split <;> simp [batchPayload]

theorem batchLoop_results_spec (env : BatchEnv) (bs delayMs : ℕ) :
    ∀ (i : ℕ) (texts : List Str),
      (batchLoop env bs delayMs i texts).1 = batchResultsSpec env i (chunksOf bs texts) := by
  intro i texts
  induction texts using chunksOf.induct bs generalizing i with
  | case1 => simp [batchLoop, chunksOf, batchResultsSpec]
  | case2 t rest ih =>
    rw [chunksOf]
    simp only [batchLoop, batchResultsSpec]
    rw [ih (i + 1)]
    congr 1
    cases hb : env.batchCallFails i with
    | true =>
      simp only [processOneBatch, hb, if_pos]
      exact filterMap_ite_none_some _ _ _
    | false =>
      simp only [processOneBatch, hb, Bool.false_eq_true, if_false]

theorem batchLoop_ids_sublist (env : BatchEnv) (bs delayMs : ℕ) :
    ∀ (i : ℕ) (texts : List Str),
      ((batchLoop env bs delayMs i texts).1.map (·.id)).Sublist texts := by
  intro i texts
  induction texts using chunksOf.induct bs generalizing i with
  | case1 => simp [batchLoop]
  | case2 t rest ih =>
    simp only [batchLoop, List.map_append]
    refine List.Sublist.trans (List.Sublist.append ?_ (ih (i + 1)))
      (by rw [List.take_append_drop])
    cases hb : env.batchCallFails i with
    | true =>
      simp only [processOneBatch, hb, if_pos]
      rw [filterMap_ite_none_some, List.map_map]
      have : ((fun r : EmbeddingResult => r.id) ∘ fun t => (⟨t, env.embedOf t⟩ : EmbeddingResult))
          = fun t => t := rfl
      rw [this, List.map_id']
      exact List.filter_sublist _
    | false =>
      simp only [processOneBatch, hb, Bool.false_eq_true, if_false]
      rw [List.map_map]
      have : ((fun r : EmbeddingResult => r.id) ∘ fun t => (⟨t, env.embedOf t⟩ : EmbeddingResult))
          = fun t => t := rfl
      rw [this, List.map_id']

theorem chunksOf_mem_length_le (bs : ℕ) (l : List Str) :
    ∀ c ∈ chunksOf bs l, c.length ≤ bs + 1 := by
  induction l using chunksOf.induct bs with
  | case1 => simp [chunksOf]
  | case2 t rest ih =>
    rw [chunksOf]
    intro c hc
    rcases List.mem_cons.mp hc with h | h
    · subst h
      simpa using Nat.min_le_left _ _
    · exact ih c h

theorem chunksOf_flatten (bs : ℕ) (l : List Str) :
    (chunksOf bs l).flatten = l := by
  induction l using chunksOf.induct bs with
  | case1 => simp [chunksOf]
  | case2 t rest ih =>
    rw [chunksOf, List.flatten_cons, ih, List.take_append_drop]

theorem batchLoop_success_trace (env : BatchEnv) (bs delayMs : ℕ)
    (h : ∀ i, env.batchCallFails i = false) :
    ∀ (i : ℕ) (texts : List Str),
      (batchLoop env bs delayMs i texts).2 = batchSuccessTrace delayMs (chunksOf bs texts) := by
  intro i texts
  induction texts using chunksOf.induct bs generalizing i with
  | case1 => simp [batchLoop, chunksOf, batchSuccessTrace]
  | case2 t rest ih =>
    rw [chunksOf]
    simp only [batchLoop, processOneBatch, h i, Bool.false_eq_true, if_false]
    cases hrem : (t :: rest).drop (bs + 1) with
    | nil =>
      simp [batchLoop, chunksOf, batchSuccessTrace]
    | cons r rs =>
      have ih' := ih (i + 1)
      rw [hrem] at ih'
      rw [ih', chunksOf]
      simp [batchSuccessTrace]

/-- C8, counterexample: with a failing provider batch call and a per-item
fallback that fails for the second text, `generateBatchEmbeddings` over
two texts returns only one result — not one per input text. -/
theorem C8_counterexample :
    ((generateBatchEmbeddings
        { batchCallFails := fun _ => true,
          itemCallFails := fun t => t = "b".toList,
          embedOf := fun _ => [] } 99 1000 ["a".toList, "b".toList]).1.map (·.id)
      = ["a".toList])
    ∧ (generateBatchEmbeddings
        { batchCallFails := fun _ => true,
          itemCallFails := fun t => t = "b".toList,
          embedOf := fun _ => [] } 99 1000 ["a".toList, "b".toList]).1.length
      ≠ (["a".toList, "b".toList] : List Str).length := by
  have h : (generateBatchEmbeddings
      { batchCallFails := fun _ => true,
        itemCallFails := fun t => t = "b".toList,
        embedOf := fun _ => [] } 99 1000 ["a".toList, "b".toList]).1
      = [⟨"a".toList, []⟩] := by
    rw [generateBatchEmbeddings]
    simp [batchLoop, processOneBatch]
  rw [h]
  exact ⟨rfl, by simp⟩

/-- C8 (amended): `generateBatchEmbeddings` partitions its input into
fixed-size sub-batches (each of at most `batchSize` texts, jointly a
partition of the input), issues one provider batch call per sub-batch
(with the rate-limit delay after every sub-batch but the last when all
calls succeed), falls back to per-item embedding inside a failed
sub-batch, and returns results in input order with one entry per text
whose batch — or, failing that, individual — embedding succeeded; texts
whose individual fallback also fails are dropped, so the output is an
order-preserving sublist of the input rather than always one-per-text.
(`bs + 1` is the batch size; the service default is 100.) -/
theorem C8_batch_fallback_structure (env : BatchEnv) (bs delayMs : ℕ) (texts : List Str) :
    ((generateBatchEmbeddings env bs delayMs texts).2.filterMap batchPayload
        = chunksOf bs texts)
    ∧ ((generateBatchEmbeddings env bs delayMs texts).1
        = batchResultsSpec env 0 (chunksOf bs texts))
    ∧ (((generateBatchEmbeddings env bs delayMs texts).1.map (·.id)).Sublist texts)
    ∧ (∀ c ∈ chunksOf bs texts, c.length ≤ bs + 1)
    ∧ ((chunksOf bs texts).flatten = texts)
    ∧ ((∀ i, env.batchCallFails i = false) →
        (generateBatchEmbeddings env bs delayMs texts).2
          = batchSuccessTrace delayMs (chunksOf bs texts)) :=
  ⟨batchLoop_trace_batchCalls env bs delayMs 0 texts,
   batchLoop_results_spec env bs delayMs 0 texts,
   batchLoop_ids_sublist env bs delayMs 0 texts,
   chunksOf_mem_length_le bs texts,
   chunksOf_flatten bs texts,
   fun h => batchLoop_success_trace env bs delayMs h 0 texts⟩

/-- C8, witness: three texts in sub-batches of one with an all-successful
provider give the delay-interleaved trace. -/
theorem C8_batch_witness :
    (generateBatchEmbeddings
        { batchCallFails := fun _ => false, itemCallFails := fun _ => false,
          embedOf := fun _ => [] } 0 5 ["a".toList, "b".toList, "c".toList]).2
      = batchSuccessTrace 5 (chunksOf 0 ["a".toList, "b".toList, "c".toList]) :=
  (C8_batch_fallback_structure
    { batchCallFails := fun _ => false, itemCallFails := fun _ => false,
      embedOf := fun _ => [] } 0 5 ["a".toList, "b".toList, "c".toList]).2.2.2.2.2
    (fun _ => rfl)

/-! ### C10: cache-key distinctness -/

theorem natDigitsAux_eq_digits :
    ∀ (fuel n : ℕ), n ≤ fuel → natDigitsAux fuel n = Nat.digits 10 n := by
  intro fuel
  induction fuel with
  | zero =>
    intro n hn
    interval_cases n
    simp [natDigitsAux]
  | succ fuel ih =>
    intro n hn
    by_cases h0 : n = 0
    · subst h0; simp [natDigitsAux]
    · rw [natDigitsAux, if_neg h0, Nat.digits_def' (by norm_num) (Nat.pos_of_ne_zero h0),
        ih (n / 10)]
      have : n / 10 < n := Nat.div_lt_self (Nat.pos_of_ne_zero h0) (by norm_num)
      omega

theorem natDigits_eq_digits (n : ℕ) : natDigits n = Nat.digits 10 n :=
  natDigitsAux_eq_digits n n le_rfl

theorem natChars_digit_chars (n : ℕ) : ∀ c ∈ natChars n, ∃ d, d < 10 ∧ c = Nat.digitChar d := by
  intro c hc
  unfold natChars at hc
  by_cases h0 : n = 0
  · rw [if_pos h0] at hc
    simp only [List.mem_singleton] at hc
    exact ⟨0, by norm_num, hc⟩
  · rw [if_neg h0, natDigits_eq_digits] at hc
    obtain ⟨d, hd, rfl⟩ := List.mem_map.mp hc
    exact ⟨d, Nat.digits_lt_base (by norm_num) (List.mem_reverse.mp hd), rfl⟩

theorem digitChar_ne_colon : ∀ d, d < 10 → Nat.digitChar d ≠ ':' := by decide

theorem digitChar_ne_u : ∀ d, d < 10 → Nat.digitChar d ≠ 'u' := by decide

theorem digitChar_eq_zeroChar : ∀ d, d < 10 → Nat.digitChar d = '0' → d = 0 := by decide

theorem digitChar_inj_lt : ∀ d₁, d₁ < 10 → ∀ d₂, d₂ < 10 →
    Nat.digitChar d₁ = Nat.digitChar d₂ → d₁ = d₂ := by decide

theorem renderOptNat_colon_free (o : Option ℕ) : ':' ∉ renderOptNat o := by
  cases o with
  | none => decide
  | some n =>
    intro hc
    obtain ⟨d, hd, he⟩ := natChars_digit_chars n ':' hc
    exact digitChar_ne_colon d hd he.symm

theorem map_digitChar_inj :
    ∀ (l₁ l₂ : List ℕ), (∀ d ∈ l₁, d < 10) → (∀ d ∈ l₂, d < 10) →
      l₁.map Nat.digitChar = l₂.map Nat.digitChar → l₁ = l₂ := by
  intro l₁
  induction l₁ with
  | nil =>
    intro l₂ _ _ h
    cases l₂ with
    | nil => rfl
    | cons d ds => exact absurd h (by simp)
  | cons d ds ih =>
    intro l₂ h₁ h₂ h
    cases l₂ with
    | nil => exact absurd h (by simp)
    | cons e es =>
      simp only [List.map_cons, List.cons.injEq] at h
      have hd := digitChar_inj_lt d (h₁ d (List.mem_cons_self _ _))
        e (h₂ e (List.mem_cons_self _ _)) h.1
      rw [hd, ih es (fun x hx => h₁ x (List.mem_cons_of_mem _ hx))
        (fun x hx => h₂ x (List.mem_cons_of_mem _ hx)) h.2]

theorem natChars_eq_zero_char (n : ℕ) (h : natChars n = ['0']) : n = 0 := by
  by_cases h0 : n = 0
  · exact h0
  exfalso
  rw [natChars, if_neg h0, natDigits_eq_digits] at h
  cases hds : (Nat.digits 10 n).reverse with
  | nil => rw [hds] at h; simp at h
  | cons d ds =>
    rw [hds] at h
    cases ds with
    | cons d' ds' => simp at h
    | nil =>
      simp only [List.map_cons, List.map_nil, List.cons.injEq, and_true] at h
      have hd10 : d < 10 :=
        Nat.digits_lt_base (by norm_num)
          (List.mem_reverse.mp (hds ▸ List.mem_cons_self _ _))
      have hd0 : d = 0 := digitChar_eq_zeroChar d hd10 h
      have hdig : Nat.digits 10 n = [0] := by
        have hrev := congrArg List.reverse hds
        rw [List.reverse_reverse] at hrev
        rw [hrev, hd0]
        rfl
      have hofd := congrArg (Nat.ofDigits 10) hdig
      rw [Nat.ofDigits_digits] at hofd
      simp [Nat.ofDigits] at hofd
      exact h0 hofd

theorem natChars_inj (n₁ n₂ : ℕ) (h : natChars n₁ = natChars n₂) : n₁ = n₂ := by
  by_cases h₁ : n₁ = 0 <;> by_cases h₂ : n₂ = 0
  · rw [h₁, h₂]
  · exfalso
    rw [h₁] at h
    exact h₂ (natChars_eq_zero_char n₂ h.symm)
  · exfalso
    rw [h₂] at h
    exact h₁ (natChars_eq_zero_char n₁ h)
  · rw [natChars, if_neg h₁, natChars, if_neg h₂, natDigits_eq_digits, natDigits_eq_digits] at h
    have hr := map_digitChar_inj _ _
      (fun d hd => Nat.digits_lt_base (by norm_num) (List.mem_reverse.mp hd))
      (fun d hd => Nat.digits_lt_base (by norm_num) (List.mem_reverse.mp hd)) h
    have hrev := List.reverse_inj.mp hr
    have := congrArg (Nat.ofDigits 10) hrev
    rwa [Nat.ofDigits_digits, Nat.ofDigits_digits] at this

theorem renderOptNat_inj (o₁ o₂ : Option ℕ) (h : renderOptNat o₁ = renderOptNat o₂) :
    o₁ = o₂ := by
  have undef_not_digits : ∀ n, "undefined".toList ≠ natChars n := by
    intro n he
    have hu : 'u' ∈ natChars n := by
      rw [← he]; decide
    obtain ⟨d, hd, hc⟩ := natChars_digit_chars n 'u' hu
    exact digitChar_ne_u d hd hc.symm
  cases o₁ with
  | none =>
    cases o₂ with
    | none => rfl
    | some n => exact absurd h (undef_not_digits n)
  | some n =>
    cases o₂ with
    | none => exact absurd h.symm (undef_not_digits n)
    | some m => exact congrArg some (natChars_inj n m h)

theorem colon_split :
    ∀ (a b r₁ r₂ : List Char), ':' ∉ a → ':' ∉ b →
      a ++ ':' :: r₁ = b ++ ':' :: r₂ → a = b ∧ r₁ = r₂ := by
  intro a
  induction a with
  | nil =>
    intro b r₁ r₂ _ hb h
    cases b with
    | nil => simpa using h
    | cons x xs =>
      exfalso
      simp only [List.nil_append, List.cons_append, List.cons.injEq] at h
      exact hb (h.1 ▸ List.mem_cons_self _ _)
  | cons c cs ih =>
    intro b r₁ r₂ ha hb h
    cases b with
    | nil =>
      exfalso
      simp only [List.cons_append, List.nil_append, List.cons.injEq] at h
      exact ha (h.1.symm ▸ List.mem_cons_self _ _)
    | cons x xs =>
      simp only [List.cons_append, List.cons.injEq] at h
      obtain ⟨rfl, hrest⟩ := h
      obtain ⟨he, hr⟩ := ih xs r₁ r₂ (fun hc => ha (List.mem_cons_of_mem _ hc))
        (fun hc => hb (List.mem_cons_of_mem _ hc)) hrest
      exact ⟨by rw [he], hr⟩

set_option maxRecDepth 4000 in
/-- C10, counterexample: `getCacheKey` truncates to 200 characters, so two
distinct 200/201-character queries with identical options produce the same
cache key, and a search for one can return the cached response of the
other. -/
theorem C10_counterexample :
    getCacheKey (List.replicate 200 'a') {} = getCacheKey (List.replicate 201 'a') {}
    ∧ (List.replicate 200 'a' : Str) ≠ List.replicate 201 'a' := by
  constructor
  · decide
  · decide

/-- C10 (amended): `getCacheKey` separates query, limit, offset and
serialized filters with `:` and is injective in (query, limit, offset),
provided the query contains no `:` and the assembled key stays under the
200-character truncation limit; beyond that limit distinct inputs can
collide (see the truncation counterexample), and a query containing `:`
can in principle shift the field boundaries. (Equal keys also force the
serialized filter remainders to be equal; the JSON serializer itself is
not modelled as injective.) -/
theorem C10_cacheKey_injective_within_limit (q₁ q₂ : Str) (o₁ o₂ : SearchOptions)
    (hq₁ : ':' ∉ q₁) (hq₂ : ':' ∉ q₂)
    (hlen₁ : (getCacheKey q₁ o₁).length < 200) (hlen₂ : (getCacheKey q₂ o₂).length < 200)
    (hkey : getCacheKey q₁ o₁ = getCacheKey q₂ o₂) :
    q₁ = q₂ ∧ o₁.limit = o₂.limit ∧ o₁.offset = o₂.offset := by
  have key_raw : ∀ (q : Str) (o : SearchOptions), (getCacheKey q o).length < 200 →
      getCacheKey q o = "search:".toList ++ (q ++ (':' :: (renderOptNat o.limit
        ++ (':' :: (renderOptNat o.offset ++ (':' ::
          (match o.filters with | none => [] | some f => jsonFilters f))))))) := by
    intro q o hlen
    have unf : getCacheKey q o = ("search:".toList ++ (q ++ (':' :: (renderOptNat o.limit
        ++ (':' :: (renderOptNat o.offset ++ (':' ::
          (match o.filters with | none => [] | some f => jsonFilters f)))))))).take 200 := by
      simp only [getCacheKey, List.cons_append, List.append_assoc]
    rw [unf]
    rw [unf, List.length_take] at hlen
    exact List.take_of_length_le (by omega)
  rw [key_raw q₁ o₁ hlen₁, key_raw q₂ o₂ hlen₂] at hkey
  have h1 := List.append_cancel_left hkey
  obtain ⟨hq, h2⟩ := colon_split q₁ q₂ _ _ hq₁ hq₂ h1
  obtain ⟨hl, h3⟩ := colon_split _ _ _ _ (renderOptNat_colon_free o₁.limit)
    (renderOptNat_colon_free o₂.limit) h2
  obtain ⟨ho, -⟩ := colon_split _ _ _ _ (renderOptNat_colon_free o₁.offset)
    (renderOptNat_colon_free o₂.offset) h3
  exact ⟨hq, renderOptNat_inj _ _ hl, renderOptNat_inj _ _ ho⟩

/-- C10, witness: two syntactically different spellings of the same short,
colon-free input are forced to coincide by key injectivity. -/
theorem C10_cacheKey_injective_witness :
    ("ab".toList : Str) = ['a', 'b']
    ∧ (some 5 : Option ℕ) = some 5 ∧ (some 0 : Option ℕ) = some 0 :=
  C10_cacheKey_injective_within_limit "ab".toList ['a', 'b']
    { limit := some 5, offset := some 0 } { limit := some 5, offset := some 0 }
    (by decide) (by decide) (by decide) (by decide) (by decide)

/-! ### C6: feedback upsert -/

theorem keyMatches_rowOf (x p : FeedbackParams) :
    feedbackKeyMatches p (feedbackRowOf x) = feedbackParamsKeyEq x p := rfl

theorem keyMatches_transfer (x p : FeedbackParams) (hk : feedbackParamsKeyEq x p = true)
    (r : FeedbackRow) : feedbackKeyMatches x r = feedbackKeyMatches p r := by
  simp only [feedbackParamsKeyEq, Bool.and_eq_true, decide_eq_true_eq] at hk
  obtain ⟨⟨h1, h2⟩, h3⟩ := hk
  simp [feedbackKeyMatches, h1, h2, h3]

theorem keyMatches_excl (x p : FeedbackParams) (hk : feedbackParamsKeyEq x p = false)
    (r : FeedbackRow) (hx : feedbackKeyMatches x r = true) :
    feedbackKeyMatches p r = false := by
  simp only [feedbackKeyMatches, Bool.and_eq_true, decide_eq_true_eq] at hx
  obtain ⟨⟨h1, h2⟩, h3⟩ := hx
  simp only [feedbackParamsKeyEq, Bool.and_eq_false_iff, decide_eq_false_iff_not] at hk
  simp only [feedbackKeyMatches, Bool.and_eq_false_iff, decide_eq_false_iff_not]
  rcases hk with (hk | hk) | hk
  · left; left; rw [h1]; exact hk
  · left; right; rw [h2]; exact hk
  · right; rw [h3]; exact hk

theorem rowsKey_map_other (x p : FeedbackParams) (hk : feedbackParamsKeyEq x p = false) :
    ∀ (T : List FeedbackRow),
      (T.map (fun r => if feedbackKeyMatches x r then feedbackRowOf x else r)).filter
        (feedbackKeyMatches p) = T.filter (feedbackKeyMatches p) := by
  intro T
  induction T with
  | nil => rfl
  | cons r rest ih =>
    simp only [List.map_cons]
    cases hmx : feedbackKeyMatches x r with
    | true =>
      have hmp := keyMatches_excl x p hk r hmx
      simp [List.filter_cons, keyMatches_rowOf, hk, hmp, ih]
    | false =>
      cases hmp : feedbackKeyMatches p r <;> simp [List.filter_cons, hmp, ih]

theorem rowsKey_map_same (x p : FeedbackParams) (hk : feedbackParamsKeyEq x p = true) :
    ∀ (T : List FeedbackRow),
      (T.map (fun r => if feedbackKeyMatches x r then feedbackRowOf x else r)).filter
          (feedbackKeyMatches p)
        = (T.filter (feedbackKeyMatches p)).map (fun _ => feedbackRowOf x) := by
  intro T
  induction T with
  | nil => rfl
  | cons r rest ih =>
    simp only [List.map_cons]
    cases hmp : feedbackKeyMatches p r with
    | true =>
      have hmx : feedbackKeyMatches x r = true := by
        rw [keyMatches_transfer x p hk]; exact hmp
      simp [hmx, List.filter_cons, keyMatches_rowOf, hk, hmp, ih]
    | false =>
      have hmx : feedbackKeyMatches x r = false := by
        rw [keyMatches_transfer x p hk]; exact hmp
      simp [hmx, List.filter_cons, hmp, ih]

theorem rowsForKey_update_other (x p : FeedbackParams)
    (hk : feedbackParamsKeyEq x p = false) (T : List FeedbackRow) :
    rowsForKey p (update_search_feedback T x) = rowsForKey p T := by
  unfold update_search_feedback rowsForKey
  by_cases hx : T.any (feedbackKeyMatches x)
  · rw [if_pos hx]
    exact rowsKey_map_other x p hk T
  · rw [if_neg hx, List.filter_append]
    have : (([feedbackRowOf x] : List FeedbackRow).filter (feedbackKeyMatches p)) = [] := by
      simp [List.filter_cons, keyMatches_rowOf, hk]
    rw [this, List.append_nil]

theorem rowsForKey_update_same (x p : FeedbackParams)
    (hk : feedbackParamsKeyEq x p = true) (T : List FeedbackRow)
    (hinv : (rowsForKey p T).length ≤ 1) :
    rowsForKey p (update_search_feedback T x) = [feedbackRowOf x] := by
  unfold update_search_feedback
  by_cases hx : T.any (feedbackKeyMatches x) = true
  · rw [if_pos hx]
    show (T.map _).filter (feedbackKeyMatches p) = _
    rw [rowsKey_map_same x p hk T]
    obtain ⟨r₀, hr₀T, hr₀x⟩ : ∃ r₀ ∈ T, feedbackKeyMatches x r₀ = true := by
      simpa [List.any_eq_true] using hx
    have hne : T.filter (feedbackKeyMatches p) ≠ [] := by
      intro hnil
      have hmem : r₀ ∈ T.filter (feedbackKeyMatches p) := by
        rw [List.mem_filter]
        exact ⟨hr₀T, by rw [← keyMatches_transfer x p hk]; exact hr₀x⟩
      rw [hnil] at hmem
      exact absurd hmem (List.not_mem_nil r₀)
    cases hfil : T.filter (feedbackKeyMatches p) with
    | nil => exact absurd hfil hne
    | cons a rest =>
      have : (rowsForKey p T).length ≤ 1 := hinv
      unfold rowsForKey at this
      rw [hfil] at this
      simp only [List.length_cons] at this
      have hrest : rest = [] := List.length_eq_zero.mp (by omega)
      subst hrest
      rfl
  · rw [if_neg hx]
    unfold rowsForKey
    rw [List.filter_append]
    have h1 : T.filter (feedbackKeyMatches p) = [] := by
      rw [List.filter_eq_nil_iff]
      intro r hr hmp
      apply hx
      rw [List.any_eq_true]
      exact ⟨r, hr, by rw [keyMatches_transfer x p hk]; exact hmp⟩
    have h2 : (([feedbackRowOf x] : List FeedbackRow).filter (feedbackKeyMatches p))
        = [feedbackRowOf x] := by
      simp [List.filter_cons, keyMatches_rowOf, hk]
    rw [h1, h2, List.nil_append]

theorem rowsForKey_update_le_one (x p : FeedbackParams) (T : List FeedbackRow)
    (hinv : (rowsForKey p T).length ≤ 1) :
    (rowsForKey p (update_search_feedback T x)).length ≤ 1 := by
  cases hk : feedbackParamsKeyEq x p with
  | true => rw [rowsForKey_update_same x p hk T hinv]; simp
  | false => rw [rowsForKey_update_other x p hk T]; exact hinv

theorem applyFeedbacks_inv (p : FeedbackParams) :
    ∀ (ps : List FeedbackParams) (T : List FeedbackRow),
      (rowsForKey p T).length ≤ 1 → (rowsForKey p (applyFeedbacks T ps)).length ≤ 1 := by
  intro ps
  induction ps with
  | nil => intro T h; exact h
  | cons x rest ih =>
    intro T h
    exact ih (update_search_feedback T x) (rowsForKey_update_le_one x p T h)

/-- C6: starting from a table with at most one feedback row for the
triple, any sequence of `update_search_feedback` calls whose last
submission for that `(searchLogId, userId, resultId)` triple is `plast`
leaves exactly one stored row for the triple, carrying `plast`'s rating
and fields — upsert semantics, last write wins. -/
theorem C6_feedback_upsert_last_write (t0 : List FeedbackRow) (ps : List FeedbackParams)
    (p plast : FeedbackParams)
    (hinv : (rowsForKey p t0).length ≤ 1)
    (hlast : (ps.filter (fun x => feedbackParamsKeyEq x p)).getLast? = some plast) :
    rowsForKey p (applyFeedbacks t0 ps) = [feedbackRowOf plast] := by
  induction ps using List.reverseRecOn generalizing plast with
  | nil => exact absurd hlast (by simp)
  | append_singleton ps x ih =>
    rw [List.filter_append] at hlast
    have happ : applyFeedbacks t0 (ps ++ [x])
        = update_search_feedback (applyFeedbacks t0 ps) x := by
      unfold applyFeedbacks
      rw [List.foldl_append]
      rfl
    rw [happ]
    cases hk : feedbackParamsKeyEq x p with
    | true =>
      have hpx : plast = x := by
        rw [List.filter_cons] at hlast
        simp only [hk, if_pos rfl, List.filter_nil, List.getLast?_append] at hlast
        simp at hlast
        exact hlast.symm
      subst hpx
      exact rowsForKey_update_same plast p hk _ (applyFeedbacks_inv p ps t0 hinv)
    | false =>
      have hlast' : (ps.filter (fun y => feedbackParamsKeyEq y p)).getLast? = some plast := by
        rw [List.filter_cons] at hlast
        simp only [hk, Bool.false_eq_true, if_false, List.filter_nil,
          List.append_nil] at hlast
        exact hlast
      rw [rowsForKey_update_other x p hk]
      exact ih plast hlast'

/-- C6, witness: two submissions for the triple `(1, 2, 3)` — `helpful`
then `not_helpful` — leave exactly the one row of the second
submission. -/
theorem C6_feedback_upsert_witness :
    rowsForKey { searchLogId := 1, userId := 2, resultId := 3, rating := .not_helpful }
      (applyFeedbacks []
        [{ searchLogId := 1, userId := 2, resultId := 3, rating := .helpful },
         { searchLogId := 1, userId := 2, resultId := 3, rating := .not_helpful }])
      = [feedbackRowOf
          { searchLogId := 1, userId := 2, resultId := 3, rating := .not_helpful }] :=
  C6_feedback_upsert_last_write []
    [{ searchLogId := 1, userId := 2, resultId := 3, rating := .helpful },
     { searchLogId := 1, userId := 2, resultId := 3, rating := .not_helpful }]
    { searchLogId := 1, userId := 2, resultId := 3, rating := .not_helpful }
    { searchLogId := 1, userId := 2, resultId := 3, rating := .not_helpful }
    (by decide) (by decide)

/-! ### C5: trending decay -/

/-- C5: every row returned by `get_trending_queries` carries the decayed
trend score `count · e^(−0.1 · ageDays)` of its query, where the count is
the number of windowed log rows for the query and the age is measured
from the query's most recent occurrence; the rows come ordered by this
score descending; and concretely `50 · e⁰ > 100 · e^(−0.1·10)`, so a
query with 50 searches today outranks one with 100 searches 10 days
ago. -/
theorem C5_trending_decayed_ordering (logs : List SearchLogRow) (now : ℚ)
    (pDays pLimit : ℕ) :
    (∀ row ∈ get_trending_queries logs now pDays pLimit,
        row.trendScore = trendScoreOf logs now pDays row.query
        ∧ row.searchCount = (windowRowsFor logs now pDays row.query).length)
    ∧ List.Sorted trendGE (get_trending_queries logs now pDays pLimit)
    ∧ ((50 : ℝ) * Real.exp (-(1/10) * 0) > 100 * Real.exp (-(1/10) * 10)) := by
  refine ⟨?_, ?_, ?_⟩
  · intro row hrow
    unfold get_trending_queries at hrow
    have hmem := (List.mem_insertionSort trendGE).mp (List.take_subset _ _ hrow)
    obtain ⟨q, hq, rfl⟩ := List.mem_map.mp hmem
    exact ⟨rfl, rfl⟩
  · unfold get_trending_queries
    exact List.Pairwise.sublist (List.take_sublist _ _)
      (List.sorted_insertionSort trendGE _)
  · have h0 : Real.exp (-(1/10) * 0) = 1 := by
      norm_num
    have h1 : (-(1/10) : ℝ) * 10 = -1 := by norm_num
    rw [h0, h1, Real.exp_neg]
    have ht : (2 : ℝ) < Real.exp 1 := lt_trans (by norm_num) Real.exp_one_gt_d9
    have ht0 : (0 : ℝ) < Real.exp 1 := Real.exp_pos 1
    rw [gt_iff_lt, show ((100 : ℝ) * (Real.exp 1)⁻¹) = 100 / Real.exp 1 by ring,
      div_lt_iff₀ ht0]
    nlinarith [ht]

/-- C5, witness: the trending rows of an empty log are (vacuously) sorted
by decayed score, and the concrete decayed-score comparison holds. -/
theorem C5_trending_witness :
    List.Sorted trendGE (get_trending_queries [] 0 7 10)
    ∧ ((50 : ℝ) * Real.exp (-(1/10) * 0) > 100 * Real.exp (-(1/10) * 10)) :=
  ⟨(C5_trending_decayed_ordering [] 0 7 10).2.1,
   (C5_trending_decayed_ordering [] 0 7 10).2.2⟩

/-! ### C1: score bounds and ordering of search responses -/

theorem termOverlapBonus_nonneg (q c : Str) : 0 ≤ termOverlapBonus q c := by
  unfold termOverlapBonus
  apply mul_nonneg
  · exact div_nonneg (Nat.cast_nonneg _) (Nat.cast_nonneg _)
  · norm_num

theorem recencyBonus_nonneg (now : ℚ) (u : Option ℚ) : 0 ≤ recencyBonus now u := by
  unfold recencyBonus
  cases u with
  | none => exact le_refl 0
  | some t => dsimp only; split_ifs <;> norm_num

theorem titleBonus_nonneg (q : Str) (t : Option Str) : 0 ≤ titleBonus q t := by
  unfold titleBonus
  cases t with
  | none => exact le_refl 0
  | some title => dsimp only; split_ifs <;> norm_num

theorem executeVectorSearch_sorted (env : SearchEnv) (emb : Embedding)
    (limit offset : ℕ) (th : ℚ) (f : Option SearchFilters) :
    List.Sorted scoreGE (executeVectorSearch env emb limit offset th f) := by
  unfold executeVectorSearch
  exact List.Pairwise.sublist
    ((List.take_sublist _ _).trans (List.drop_sublist _ _))
    (List.sorted_insertionSort scoreGE _)

theorem executeVectorSearch_mem (env : SearchEnv) (emb : Embedding)
    (limit offset : ℕ) (th : ℚ) (f : Option SearchFilters) (res : SearchResult)
    (hres : res ∈ executeVectorSearch env emb limit offset th f) :
    (∃ r ∈ env.rows, res = rowToResult env emb r ∧ th < 1 - env.distOf emb r.id) := by
  unfold executeVectorSearch at hres
  have h1 := List.take_subset _ _ hres
  have h2 := List.drop_subset _ _ h1
  have h3 := (List.mem_insertionSort scoreGE).mp h2
  obtain ⟨r, hr, rfl⟩ := List.mem_map.mp h3
  rw [List.mem_filter] at hr
  obtain ⟨hrow, hcond⟩ := hr
  rw [Bool.and_eq_true, decide_eq_true_eq] at hcond
  exact ⟨r, hrow, rfl, hcond.2⟩

theorem executeVectorSearch_score_bounds (env : SearchEnv) (emb : Embedding)
    (limit offset : ℕ) (th : ℚ) (f : Option SearchFilters)
    (hd : ∀ r ∈ env.rows, 0 ≤ env.distOf emb r.id) (res : SearchResult)
    (hres : res ∈ executeVectorSearch env emb limit offset th f) :
    th < res.score ∧ res.score ≤ 1 := by
  obtain ⟨r, hrow, rfl, hth⟩ := executeVectorSearch_mem env emb limit offset th f res hres
  refine ⟨hth, ?_⟩
  have := hd r hrow
  show 1 - env.distOf emb r.id ≤ 1
  linarith

theorem rerankResults_sorted (q : Str) (l : List SearchResult) (now : ℚ) :
    List.Sorted scoreGE (rerankResults q l now) := by
  unfold rerankResults
  exact List.sorted_insertionSort scoreGE _

theorem rerankResults_mem (q : Str) (l : List SearchResult) (now : ℚ) (res : SearchResult)
    (hres : res ∈ rerankResults q l now) :
    ∃ r ∈ l, res.score = min (r.score + termOverlapBonus q r.content
      + recencyBonus now r.updatedAt + titleBonus q r.documentTitle) 1 := by
  unfold rerankResults at hres
  have h1 := (List.mem_insertionSort scoreGE).mp hres
  obtain ⟨r, hr, rfl⟩ := List.mem_map.mp h1
  exact ⟨r, hr, rfl⟩

theorem rerankResults_score_bounds (q : Str) (l : List SearchResult) (now : ℚ) (th : ℚ)
    (hb : ∀ r ∈ l, th < r.score ∧ r.score ≤ 1) (res : SearchResult)
    (hres : res ∈ rerankResults q l now) :
    th < res.score ∧ res.score ≤ 1 := by
  obtain ⟨r, hr, hsc⟩ := rerankResults_mem q l now res hres
  obtain ⟨hth, h1⟩ := hb r hr
  rw [hsc]
  constructor
  · apply lt_min
    · have h2 := termOverlapBonus_nonneg q r.content
      have h3 := recencyBonus_nonneg now r.updatedAt
      have h4 := titleBonus_nonneg q r.documentTitle
      linarith
    · linarith
  · exact min_le_right _ _

theorem addHighlights_mem (q : Str) (l : List SearchResult) (res : SearchResult)
    (hres : res ∈ addHighlights q l) : ∃ r ∈ l, res.score = r.score := by
  unfold addHighlights at hres
  obtain ⟨r, hr, rfl⟩ := List.mem_map.mp hres
  exact ⟨r, hr, rfl⟩

theorem addHighlights_sorted (q : Str) (l : List SearchResult)
    (hs : List.Sorted scoreGE l) : List.Sorted scoreGE (addHighlights q l) := by
  unfold addHighlights
  exact hs.map _ (fun a b hab => hab)

theorem addHighlights_score_map (q : Str) (l : List SearchResult) :
    (addHighlights q l).map (·.score) = l.map (·.score) := by
  unfold addHighlights
  rw [List.map_map]
  rfl

theorem search_results_miss (env : SearchEnv) (st : SearchState) (q : Str)
    (o : SearchOptions) (hl : st.cache.lookup (getCacheKey q o) = none) :
    (search env st q o).1.results
      = addHighlights q
          (if o.rerank ∧ (executeVectorSearch env (env.embedOf q)
                (match o.limit with | some n => if n = 0 then 10 else n | none => 10)
                (match o.offset with | some n => n | none => 0)
                (match o.threshold with | some t => if t = 0 then 7/10 else t | none => 7/10)
                o.filters).length > 0 then
            rerankResults q
              (executeVectorSearch env (env.embedOf q)
                (match o.limit with | some n => if n = 0 then 10 else n | none => 10)
                (match o.offset with | some n => n | none => 0)
                (match o.threshold with | some t => if t = 0 then 7/10 else t | none => 7/10)
                o.filters) env.now
          else
            executeVectorSearch env (env.embedOf q)
              (match o.limit with | some n => if n = 0 then 10 else n | none => 10)
              (match o.offset with | some n => n | none => 0)
              (match o.threshold with | some t => if t = 0 then 7/10 else t | none => 7/10)
              o.filters) := by
  unfold search
  dsimp only
  rw [hl]

theorem search_hit (env : SearchEnv) (st : SearchState) (q : Str) (o : SearchOptions)
    (r : SearchResponse) (h : st.cache.lookup (getCacheKey q o) = some r) :
    (search env st q o).1 = r := by
  unfold search
  dsimp only
  rw [h]

theorem search_cache_after_miss (env : SearchEnv) (st : SearchState) (q : Str)
    (o : SearchOptions) (hl : st.cache.lookup (getCacheKey q o) = none) :
    (search env st q o).2.cache = (getCacheKey q o, (search env st q o).1) :: st.cache := by
  unfold search
  dsimp only
  rw [hl]

/-- C1 (amended): for every response *computed* by the search pipeline
(cache miss) over chunks with nonnegative cosine distances, every
result's score lies within `[threshold, 1.0]` — with the threshold
defaulting to 0.7 under JavaScript `||` (an explicit `0` also falls
back) — and the results are sorted descending by score. Cached responses
satisfy the bounds of the request that populated the cache; since the
threshold is not part of the cache key, a cache hit can return scores
below the current request's threshold (see the counterexample). -/
theorem C1_fresh_response_score_bounds (env : SearchEnv) (st : SearchState) (q : Str)
    (o : SearchOptions)
    (hl : st.cache.lookup (getCacheKey q o) = none)
    (hd : ∀ r ∈ env.rows, 0 ≤ env.distOf (env.embedOf q) r.id) :
    (∀ res ∈ (search env st q o).1.results,
        (match o.threshold with
          | some t => if t = 0 then 7/10 else t
          | none => (7:ℚ)/10) ≤ res.score ∧ res.score ≤ 1)
    ∧ List.Sorted scoreGE (search env st q o).1.results := by
  rw [search_results_miss env st q o hl]
  have hevsb : ∀ r ∈ executeVectorSearch env (env.embedOf q)
      (match o.limit with | some n => if n = 0 then 10 else n | none => 10)
      (match o.offset with | some n => n | none => 0)
      (match o.threshold with | some t => if t = 0 then 7/10 else t | none => 7/10)
      o.filters,
      (match o.threshold with
        | some t => if t = 0 then 7/10 else t
        | none => (7:ℚ)/10) < r.score ∧ r.score ≤ 1 :=
    fun r hr => executeVectorSearch_score_bounds env _ _ _ _ o.filters hd r hr
  have hfin : ∀ res ∈ (if o.rerank ∧ (executeVectorSearch env (env.embedOf q)
        (match o.limit with | some n => if n = 0 then 10 else n | none => 10)
        (match o.offset with | some n => n | none => 0)
        (match o.threshold with | some t => if t = 0 then 7/10 else t | none => 7/10)
        o.filters).length > 0 then
      rerankResults q (executeVectorSearch env (env.embedOf q)
        (match o.limit with | some n => if n = 0 then 10 else n | none => 10)
        (match o.offset with | some n => n | none => 0)
        (match o.threshold with | some t => if t = 0 then 7/10 else t | none => 7/10)
        o.filters) env.now
    else executeVectorSearch env (env.embedOf q)
        (match o.limit with | some n => if n = 0 then 10 else n | none => 10)
        (match o.offset with | some n => n | none => 0)
        (match o.threshold with | some t => if t = 0 then 7/10 else t | none => 7/10)
        o.filters),
      (match o.threshold with
        | some t => if t = 0 then 7/10 else t
        | none => (7:ℚ)/10) < res.score ∧ res.score ≤ 1 := by
    split
    · exact fun res hres => rerankResults_score_bounds q _ env.now _ hevsb res hres
    · exact hevsb
  have hsort : List.Sorted scoreGE (if o.rerank ∧ (executeVectorSearch env (env.embedOf q)
        (match o.limit with | some n => if n = 0 then 10 else n | none => 10)
        (match o.offset with | some n => n | none => 0)
        (match o.threshold with | some t => if t = 0 then 7/10 else t | none => 7/10)
        o.filters).length > 0 then
      rerankResults q (executeVectorSearch env (env.embedOf q)
        (match o.limit with | some n => if n = 0 then 10 else n | none => 10)
        (match o.offset with | some n => n | none => 0)
        (match o.threshold with | some t => if t = 0 then 7/10 else t | none => 7/10)
        o.filters) env.now
    else executeVectorSearch env (env.embedOf q)
        (match o.limit with | some n => if n = 0 then 10 else n | none => 10)
        (match o.offset with | some n => n | none => 0)
        (match o.threshold with | some t => if t = 0 then 7/10 else t | none => 7/10)
        o.filters) := by
    split
    · exact rerankResults_sorted q _ env.now
    · exact executeVectorSearch_sorted env _ _ _ _ o.filters
  constructor
  · intro res hres
    obtain ⟨r, hr, hsc⟩ := addHighlights_mem q _ res hres
    obtain ⟨h1, h2⟩ := hfin r hr
    rw [hsc]
    exact ⟨le_of_lt h1, h2⟩
  · exact addHighlights_sorted q _ hsort

set_option maxRecDepth 4000 in
/-- C1, counterexample: the cache key omits the threshold, so a search
cached at threshold 0.2 (scoring a 0.5-similarity chunk) is returned
verbatim for the same query re-issued at threshold 0.9 — the response
then contains a score below the request's threshold. -/
theorem C1_counterexample :
    ((search
        { rows := [{ id := 0, content := "x".toList, chunkIndex := 0, documentId := 0,
                     documentTitle := "t".toList, documentType := "p".toList,
                     departmentId := "d".toList, warehouseId := "w".toList,
                     language := "e".toList, category := "c".toList,
                     createdAt := 0, updatedAt := 0 }],
          embedOf := fun _ => [], distOf := fun _ _ => 1/2,
          relatedQueries := fun _ => [], now := 0, elapsed := 0 }
        ((search
          { rows := [{ id := 0, content := "x".toList, chunkIndex := 0, documentId := 0,
                       documentTitle := "t".toList, documentType := "p".toList,
                       departmentId := "d".toList, warehouseId := "w".toList,
                       language := "e".toList, category := "c".toList,
                       createdAt := 0, updatedAt := 0 }],
            embedOf := fun _ => [], distOf := fun _ _ => 1/2,
            relatedQueries := fun _ => [], now := 0, elapsed := 0 }
          {} "q".toList { threshold := some (1/5) }).2)
        "q".toList { threshold := some (9/10) }).1.results.map (·.score) = [1/2])
    ∧ ¬ ((9:ℚ)/10 ≤ 1/2) := by
  have hkey : getCacheKey "q".toList ({ threshold := some (1/5) } : SearchOptions)
      = getCacheKey "q".toList ({ threshold := some (9/10) } : SearchOptions) := rfl
  have hr1 : (search
      { rows := [{ id := 0, content := "x".toList, chunkIndex := 0, documentId := 0,
                   documentTitle := "t".toList, documentType := "p".toList,
                   departmentId := "d".toList, warehouseId := "w".toList,
                   language := "e".toList, category := "c".toList,
                   createdAt := 0, updatedAt := 0 }],
        embedOf := fun _ => [], distOf := fun _ _ => 1/2,
        relatedQueries := fun _ => [], now := 0, elapsed := 0 }
      {} "q".toList { threshold := some (1/5) }).1.results.map (·.score) = [1/2] := by
    have hl0 : (({} : SearchState)).cache.lookup
        (getCacheKey "q".toList ({ threshold := some (1/5) } : SearchOptions)) = none := rfl
    rw [search_results_miss _ _ _ _ hl0, if_neg (by simp), addHighlights_score_map]
    unfold executeVectorSearch
    dsimp only
    norm_num [matchesFilters, List.filter_cons, rowToResult, List.insertionSort,
      List.orderedInsert, List.take_of_length_le]
  have hcache : (search
      { rows := [{ id := 0, content := "x".toList, chunkIndex := 0, documentId := 0,
                   documentTitle := "t".toList, documentType := "p".toList,
                   departmentId := "d".toList, warehouseId := "w".toList,
                   language := "e".toList, category := "c".toList,
                   createdAt := 0, updatedAt := 0 }],
        embedOf := fun _ => [], distOf := fun _ _ => 1/2,
        relatedQueries := fun _ => [], now := 0, elapsed := 0 }
      {} "q".toList { threshold := some (1/5) }).2.cache
      = [(getCacheKey "q".toList ({ threshold := some (1/5) } : SearchOptions),
          (search
            { rows := [{ id := 0, content := "x".toList, chunkIndex := 0, documentId := 0,
                         documentTitle := "t".toList, documentType := "p".toList,
                         departmentId := "d".toList, warehouseId := "w".toList,
                         language := "e".toList, category := "c".toList,
                         createdAt := 0, updatedAt := 0 }],
              embedOf := fun _ => [], distOf := fun _ _ => 1/2,
              relatedQueries := fun _ => [], now := 0, elapsed := 0 }
            {} "q".toList { threshold := some (1/5) }).1)] :=
    search_cache_after_miss _ _ _ _ rfl
  have hhit : (search
      { rows := [{ id := 0, content := "x".toList, chunkIndex := 0, documentId := 0,
                   documentTitle := "t".toList, documentType := "p".toList,
                   departmentId := "d".toList, warehouseId := "w".toList,
                   language := "e".toList, category := "c".toList,
                   createdAt := 0, updatedAt := 0 }],
        embedOf := fun _ => [], distOf := fun _ _ => 1/2,
        relatedQueries := fun _ => [], now := 0, elapsed := 0 }
      ((search
        { rows := [{ id := 0, content := "x".toList, chunkIndex := 0, documentId := 0,
                     documentTitle := "t".toList, documentType := "p".toList,
                     departmentId := "d".toList, warehouseId := "w".toList,
                     language := "e".toList, category := "c".toList,
                     createdAt := 0, updatedAt := 0 }],
          embedOf := fun _ => [], distOf := fun _ _ => 1/2,
          relatedQueries := fun _ => [], now := 0, elapsed := 0 }
        {} "q".toList { threshold := some (1/5) }).2)
      "q".toList { threshold := some (9/10) }).1
      = (search
        { rows := [{ id := 0, content := "x".toList, chunkIndex := 0, documentId := 0,
                     documentTitle := "t".toList, documentType := "p".toList,
                     departmentId := "d".toList, warehouseId := "w".toList,
                     language := "e".toList, category := "c".toList,
                     createdAt := 0, updatedAt := 0 }],
          embedOf := fun _ => [], distOf := fun _ _ => 1/2,
          relatedQueries := fun _ => [], now := 0, elapsed := 0 }
        {} "q".toList { threshold := some (1/5) }).1 := by
    apply search_hit
    rw [hcache, ← hkey]
    exact List.lookup_cons_self
  rw [hhit]
  exact ⟨hr1, by norm_num⟩

/-- C1, witness: a fresh search over one chunk at distance 0.2 (score
0.8 ≥ default threshold 0.7) satisfies the score bounds and descending
order. -/
theorem C1_fresh_response_witness :
    (∀ res ∈ (search
        { rows := [{ id := 0, content := "x".toList, chunkIndex := 0, documentId := 0,
                     documentTitle := "t".toList, documentType := "p".toList,
                     departmentId := "d".toList, warehouseId := "w".toList,
                     language := "e".toList, category := "c".toList,
                     createdAt := 0, updatedAt := 0 }],
          embedOf := fun _ => [], distOf := fun _ _ => 1/5,
          relatedQueries := fun _ => [], now := 0, elapsed := 0 }
        {} "q".toList {}).1.results,
        (match ({} : SearchOptions).threshold with
          | some t => if t = 0 then 7/10 else t
          | none => (7:ℚ)/10) ≤ res.score ∧ res.score ≤ 1)
    ∧ List.Sorted scoreGE (search
        { rows := [{ id := 0, content := "x".toList, chunkIndex := 0, documentId := 0,
                     documentTitle := "t".toList, documentType := "p".toList,
                     departmentId := "d".toList, warehouseId := "w".toList,
                     language := "e".toList, category := "c".toList,
                     createdAt := 0, updatedAt := 0 }],
          embedOf := fun _ => [], distOf := fun _ _ => 1/5,
          relatedQueries := fun _ => [], now := 0, elapsed := 0 }
        {} "q".toList {}).1.results :=
  C1_fresh_response_score_bounds _ _ _ _ rfl (by intro r hr; norm_num)
